import Mathlib

/-!
Shallow embedding of the libkcmdline sources (validators, validator registry,
database builder, query engine) together with theorems checking the
specification's claims against them.

Modelling conventions:
* Rust `HashMap` values are association lists (`List (k × v)`) looked up with
  `lookupVal`, or plain functions when the map is only ever read through `get`
  with an empty default.
* Fallible Rust code (`Result`) becomes `Except`; a reachable `panic!` /
  `.unwrap()` failure is an `Option` result of `none`.
* Machine integers are `Nat` with explicit `2 ^ 32` / `2 ^ 64` bounds where the
  Rust code can overflow.
* The regex class `\d` is modelled as the ASCII digits `0`-`9`.
-/

namespace Kcmdline

/-- Model of `toml::Value` restricted to the variants the validators read. -/
inductive TomlValue where
  | boolVal (b : Bool)
  | intVal (i : Int)
  | strVal (s : String)
  | arrVal (elems : List TomlValue)

/-- `toml::Value::as_bool`. -/
def TomlValue.asBool : TomlValue → Option Bool
  | .boolVal b => some b
  | _ => none

/-- `toml::Value::as_integer`. -/
def TomlValue.asInteger : TomlValue → Option Int
  | .intVal i => some i
  | _ => none

/-- `toml::Value::as_str`. -/
def TomlValue.asStr : TomlValue → Option String
  | .strVal s => some s
  | _ => none

/-- `toml::Value::as_array`. -/
def TomlValue.asArray : TomlValue → Option (List TomlValue)
  | .arrVal l => some l
  | _ => none

/-- A validator configuration map, `HashMap<String, toml::Value>`. -/
abbrev Config : Type := List (String × TomlValue)

/-- First-match association-list lookup, modelling `HashMap::get`. -/
def lookupVal {β : Type} : List (String × β) → String → Option β
  | [], _ => none
  | (k, v) :: rest, key => if k = key then some v else lookupVal rest key

/-- `config.get(key).and_then(|v| v.as_bool()).unwrap_or(false)`. -/
def cfgBool (config : Config) (key : String) : Bool :=
  ((lookupVal config key).bind TomlValue.asBool).getD false

/-- Code points of Unicode `White_Space`, used by Rust `str::trim`. -/
def whitespaceCodes : List Nat :=
  [0x9, 0xA, 0xB, 0xC, 0xD, 0x20, 0x85, 0xA0, 0x1680,
   0x2000, 0x2001, 0x2002, 0x2003, 0x2004, 0x2005, 0x2006, 0x2007,
   0x2008, 0x2009, 0x200A, 0x2028, 0x2029, 0x202F, 0x205F, 0x3000]

/-- Rust `char::is_whitespace`. -/
def rustIsWhitespace (c : Char) : Bool :=
  whitespaceCodes.contains c.toNat

/-- Rust `str::trim` on a character list. -/
def rustTrimChars (cs : List Char) : List Char :=
  ((cs.dropWhile rustIsWhitespace).reverse.dropWhile rustIsWhitespace).reverse

/-- Rust `str::split(sep)`: splits at every occurrence, `"" → [""]`. -/
def splitChar (sep : Char) : List Char → List (List Char)
  | [] => [[]]
  | c :: rest =>
    if c = sep then
      [] :: splitChar sep rest
    else
      match splitChar sep rest with
      | [] => [[c]]
      | h :: t => (c :: h) :: t

/-- Rust `str::splitn(2, sep)` for a string known to contain `sep`:
the part before the first `sep` and the part after it. -/
def splitFirst (sep : Char) : List Char → List Char × List Char
  | [] => ([], [])
  | c :: rest =>
    if c = sep then ([], rest)
    else
      let (before, after) := splitFirst sep rest
      (c :: before, after)

/-- Numeric value of an ASCII digit sequence. -/
def natOfDigits (ds : List Char) : Nat :=
  ds.foldl (fun n c => 10 * n + (c.toNat - 48)) 0

/-- `ValidationResult` from `validators/mod.rs`. -/
inductive ValidationResult where
  | Valid
  | Warning (reason : String)
  | Error (reason : String)
  | Unknown (name : String)
deriving DecidableEq, Repr

/-- `SizeValidator::validate` from `validators/common.rs`.
The regex is `^(\d+)([KMG]?)$`; the captured digits are then parsed as `u64`
with `.unwrap()`, so a digit sequence whose value is at least `2 ^ 64`
panics — modelled as `none`. -/
def sizeValidate (value : String) : Option ValidationResult :=
  let cs := value.toList
  let ds := cs.takeWhile Char.isDigit
  let suffix := cs.dropWhile Char.isDigit
  if ds ≠ [] ∧ (suffix = [] ∨ suffix = ['K'] ∨ suffix = ['M'] ∨ suffix = ['G']) then
    if 2 ^ 64 ≤ natOfDigits ds then
      none
    else
      some ValidationResult.Valid
  else
    some (ValidationResult.Error ("Invalid size format: \x27" ++ value ++ "\x27"))

/-- Match of one item against the cpu-list regex `^(\^?)(\d+)(-(\d+))?$` from
`CpuListValidator::validate_cpu_list`: optional caret, start digits, optional
end digits. -/
def parseCpuItem (cs : List Char) : Option (Bool × List Char × Option (List Char)) :=
  let (excl, rest) :=
    match cs with
    | '^' :: r => (true, r)
    | _ => (false, cs)
  let d1 := rest.takeWhile Char.isDigit
  let rest2 := rest.dropWhile Char.isDigit
  if d1 = [] then none
  else
    match rest2 with
    | [] => some (excl, d1, none)
    | '-' :: r2 =>
      let d2 := r2.takeWhile Char.isDigit
      let rest3 := r2.dropWhile Char.isDigit
      if d2 ≠ [] ∧ rest3 = [] then some (excl, d1, some d2) else none
    | _ => none

/-- Loop body of `CpuListValidator::validate_cpu_list`: each comma-separated
part is trimmed and matched against the regex; the captured digits are parsed
as `u32` with `.unwrap()`, so values of at least `2 ^ 32` panic (`none`).
The start number is parsed before the exclusion check, mirroring the source
order. -/
def validateCpuItems (parts : List (List Char)) (supportsExclusion : Bool) :
    Option ValidationResult :=
  match parts with
  | [] => some ValidationResult.Valid
  | part :: rest =>
    let trimmed := rustTrimChars part
    match parseCpuItem trimmed with
    | none =>
      some (ValidationResult.Error
        ("Invalid CPU specification: \x27" ++ String.mk trimmed ++ "\x27"))
    | some (excl, d1, d2opt) =>
      if 2 ^ 32 ≤ natOfDigits d1 then none
      else if excl ∧ ¬ supportsExclusion then
        some (ValidationResult.Error "CPU exclusion (^) not supported")
      else
        match d2opt with
        | none => validateCpuItems rest supportsExclusion
        | some d2 =>
          if 2 ^ 32 ≤ natOfDigits d2 then none
          else if natOfDigits d2 ≤ natOfDigits d1 then
            some (ValidationResult.Error
              ("Invalid CPU range: " ++ toString (natOfDigits d1) ++ "-"
                ++ toString (natOfDigits d2)))
          else validateCpuItems rest supportsExclusion

/-- `CpuListValidator::validate_cpu_list`. -/
def validateCpuList (cpuList : String) (supportsExclusion : Bool) :
    Option ValidationResult :=
  validateCpuItems (splitChar ',' cpuList.toList) supportsExclusion

/-- Flag-segment loop of `CpuListValidator::validate`: returns the first
error, if any. -/
def checkCpuFlags (flagParts : List (List Char)) (validFlags : List String) :
    Option ValidationResult :=
  match flagParts with
  | [] => none
  | flag :: rest =>
    if validFlags ≠ [] ∧ String.mk (rustTrimChars flag) ∉ validFlags then
      some (ValidationResult.Error
        ("Invalid CPU flag: \x27" ++ String.mk flag ++ "\x27"))
    else checkCpuFlags rest validFlags

/-- `CpuListValidator::validate` from `validators/kernel.rs`. -/
def cpuListValidate (value : String) (config : Config) : Option ValidationResult :=
  let supportsFlags := cfgBool config "supports_flags"
  let supportsExclusion := cfgBool config "supports_exclusion"
  if supportsFlags ∧ value.toList.contains ':' then
    let (flagStr, cpuPart) := splitFirst ':' value.toList
    let validFlags :=
      (((lookupVal config "valid_flags").bind TomlValue.asArray).getD []).filterMap
        TomlValue.asStr
    match checkCpuFlags (splitChar ',' flagStr) validFlags with
    | some err => some err
    | none => validateCpuItems (splitChar ',' cpuPart) supportsExclusion
  else
    validateCpuItems (splitChar ',' value.toList) supportsExclusion

/-- One item of the claim-side acceptance predicate: after trimming
whitespace the item matches `^(\^?)(\d+)(-(\d+))?$` with all digit values
below `2 ^ 32`, a caret only when exclusion is supported, and a range
strictly increasing. -/
def cpuItemOk (item : List Char) (supportsExclusion : Bool) : Bool :=
  match parseCpuItem (rustTrimChars item) with
  | none => false
  | some (excl, d1, d2opt) =>
    decide (natOfDigits d1 < 2 ^ 32) && (!excl || supportsExclusion) &&
      match d2opt with
      | none => true
      | some d2 =>
        decide (natOfDigits d2 < 2 ^ 32) && decide (natOfDigits d1 < natOfDigits d2)

/-- Acceptance predicate written from the amended claim wording: every
comma-separated item is acceptable per `cpuItemOk`. -/
def specCpuAccepts (value : String) (supportsExclusion : Bool) : Bool :=
  (splitChar ',' value.toList).all fun item => cpuItemOk item supportsExclusion

/-- The recognized unit suffixes from `SystemdUnitValidator::validate`. -/
def systemdValidSuffixes : List String :=
  [".service", ".target", ".socket", ".timer", ".mount",
   ".automount", ".swap", ".path", ".slice", ".scope"]

/-- `valid_suffixes.iter().any(|suffix| value.ends_with(suffix))`. -/
def hasRecognizedSuffix (value : String) : Bool :=
  systemdValidSuffixes.any fun suf => suf.toList.isSuffixOf value.toList

/-- `value.contains('/') || value.contains('\\')`. -/
def containsPathSeparator (value : String) : Bool :=
  value.toList.contains '/' || value.toList.contains '\\'

/-- `SystemdUnitValidator::validate` from `validators/systemd.rs`.
Note the source order: the suffix check runs before the path-separator
check. -/
def systemdUnitValidate (value : String) : ValidationResult :=
  if value = "" then
    ValidationResult.Error "Unit name cannot be empty"
  else if !hasRecognizedSuffix value then
    ValidationResult.Warning
      ("Unit \x27" ++ value ++ "\x27 doesn\x27t have a recognized suffix")
  else if containsPathSeparator value then
    ValidationResult.Error "Unit names cannot contain path separators"
  else
    ValidationResult.Valid

/-- `ParameterProcessor` from `parameter.rs`; equality is over the full
tag plus payload. -/
inductive ParameterProcessor where
  | kernel
  | systemd (minVersion : String)
  | dracut (minVersion : String)
  | initramfsTools
  | plymouth
  | grub
deriving DecidableEq, Repr

/-- `RegistryError` from `error.rs`. -/
inductive RegistryError where
  | nameError (name : String)
deriving DecidableEq, Repr

/-- The validator objects installed or registered in a
`StandardValidatorRegistry`: the built-in implementations from
`validators/`, plus caller-registered ones (`Box<dyn ParameterValidator>`)
identified by a number. -/
inductive ValidatorImpl where
  | booleanV
  | integerV
  | enumV
  | sizeV
  | hexV
  | keyValueV
  | cpuListV
  | memoryRangeV
  | pciDeviceV
  | dracutLuksNameV
  | userV (id : Nat)
deriving DecidableEq, Repr

/-- `StandardValidatorRegistry` from `validators/mod.rs`. -/
structure StandardValidatorRegistry where
  commonValidators : List (String × ValidatorImpl)
  processorValidators : List (String × ValidatorImpl)

/-- `StandardValidatorRegistry::new`: the built-in tables. -/
def StandardValidatorRegistry.new : StandardValidatorRegistry :=
  { commonValidators :=
      [("boolean", .booleanV), ("integer", .integerV), ("enum", .enumV),
       ("size", .sizeV), ("hex", .hexV), ("key_value", .keyValueV)],
    processorValidators :=
      [("cpu_list", .cpuListV), ("memory_range", .memoryRangeV),
       ("pci_device", .pciDeviceV), ("dracut_luks_name", .dracutLuksNameV)] }

/-- `StandardValidatorRegistry::get_validator`: the processor argument is
ignored (`_processor` in the source); the processor-specific table is
consulted first, then the common table. -/
def StandardValidatorRegistry.getValidator (reg : StandardValidatorRegistry)
    (_processor : ParameterProcessor) (name : String) : Option ValidatorImpl :=
  match lookupVal reg.processorValidators name with
  | some v => some v
  | none => lookupVal reg.commonValidators name

/-- `HashMap::insert` modelled on an association list: the new binding
shadows any older one under first-match lookup. -/
def insertVal {β : Type} (l : List (String × β)) (k : String) (v : β) :
    List (String × β) :=
  (k, v) :: l

/-- `StandardValidatorRegistry::register_validator`: the name-collision
check is commented out in the source, so the entry is inserted into the
processor-specific table unconditionally and the call always returns `Ok`. -/
def StandardValidatorRegistry.registerValidator (reg : StandardValidatorRegistry)
    (name : String) (v : ValidatorImpl) :
    Except RegistryError StandardValidatorRegistry :=
  Except.ok { reg with processorValidators := insertVal reg.processorValidators name v }

/-- `true` on `Except.ok`. -/
def exceptIsOk {ε α : Type} : Except ε α → Bool
  | .ok _ => true
  | .error _ => false

/-- `DatabaseError` from `error.rs` (the I/O payload reduced to its
message). -/
inductive DatabaseError where
  | ioError (msg : String)
  | loadError (msg : String)
  | formatError (msg : String)
  | missingDefinition (name : String)
deriving DecidableEq, Repr

/-- `SyntaxDefinitionRaw` from `database.rs`. -/
structure SyntaxDefinitionRaw where
  validatorType : String
  format : String
  config : Config

/-- `DistributionSupportRaw` from `database.rs`. -/
structure DistributionSupportRaw where
  minVersion : Option String
  maxVersion : Option String
  componentVersion : Option String
  notes : Option String

/-- `ExamplesRaw` from `database.rs`. -/
structure ExamplesRaw where
  valid : List String
  invalid : List String

/-- `DocumentationLinksRaw` from `database.rs`. -/
structure DocumentationLinksRaw where
  kernelOrg : Option String
  manPages : List String
  distributionDocs : List (String × String)

/-- `ParameterDefinitionRaw` from `database.rs`. -/
structure ParameterDefinitionRaw where
  name : String
  processor : String
  description : String
  deprecated : Option Bool
  selectors : Option (List String)
  syntaxDef : SyntaxDefinitionRaw
  distributions : Option (List (String × DistributionSupportRaw))
  examples : Option ExamplesRaw
  documentation : Option DocumentationLinksRaw

/-- `VendorVersionRaw` from `database.rs`. -/
structure VendorVersionRaw where
  introduced : Option String
  commit : Option String
  notes : Option String

/-- `ComponentVersionRaw` from `database.rs`. -/
structure ComponentVersionRaw where
  name : String
  version : String

/-- `VersionInfoRaw` from `database.rs`. -/
structure VersionInfoRaw where
  introduced : Option String
  commit : Option String
  lastModified : Option String
  lastModifiedCommit : Option String

/-- `ParameterVersionsRaw` from `database.rs`. -/
structure ParameterVersionsRaw where
  mainline : Option VersionInfoRaw
  vendors : Option (List (String × List (String × VendorVersionRaw)))
  components : Option (List (String × ComponentVersionRaw))

/-- `SyntaxDefinition` from `parameter.rs`. -/
structure SyntaxDefinition where
  validatorType : String
  format : String
  config : Config

/-- `DistributionSupport` from `parameter.rs`. -/
structure DistributionSupport where
  minVersion : Option String
  maxVersion : Option String
  componentVersion : Option String
  notes : Option String

/-- `Examples` from `parameter.rs`. -/
structure Examples where
  valid : List String
  invalid : List String

/-- `DocumentationLinks` from `parameter.rs`. -/
structure DocumentationLinks where
  kernelOrg : Option String
  manPages : List String
  distributionDocs : List (String × String)

/-- `Parameter` from `parameter.rs`. -/
structure Parameter where
  name : String
  processor : ParameterProcessor
  description : String
  deprecated : Bool
  selectors : List String
  syntaxDef : SyntaxDefinition
  distributions : List (String × DistributionSupport)
  examples : Examples
  documentation : Option DocumentationLinks

/-- `DatabaseLoader::parse_processor`. -/
def parseProcessor (processorStr : String) : Except DatabaseError ParameterProcessor :=
  match processorStr with
  | "kernel" => .ok ParameterProcessor.kernel
  | "systemd" => .ok (ParameterProcessor.systemd "219")
  | "dracut" => .ok (ParameterProcessor.dracut "011")
  | "initramfs-tools" => .ok ParameterProcessor.initramfsTools
  | "plymouth" => .ok ParameterProcessor.plymouth
  | "grub" => .ok ParameterProcessor.grub
  | _ => .error (DatabaseError.formatError ("Unknown processor: " ++ processorStr))

/-- Modelled from the spec: `DatabaseLoader::convert_distributions` is an
unimplemented `todo!()` stub in `database.rs`; per spec section 6 the
per-distribution support map carries its four optional fields through
unchanged, an absent map giving an empty map. -/
def convertDistributions (raw : Option (List (String × DistributionSupportRaw))) :
    Except DatabaseError (List (String × DistributionSupport)) :=
  .ok ((raw.getD []).map fun p =>
    (p.1, { minVersion := p.2.minVersion, maxVersion := p.2.maxVersion,
            componentVersion := p.2.componentVersion, notes := p.2.notes }))

/-- Modelled from the spec: `DatabaseLoader::convert_examples` is an
unimplemented `todo!()` stub in `database.rs`; per spec section 6 the
examples record carries its valid and invalid lists through unchanged,
an absent record giving empty lists. -/
def convertExamples (raw : Option ExamplesRaw) : Except DatabaseError Examples :=
  let r := raw.getD { valid := [], invalid := [] }
  .ok { valid := r.valid, invalid := r.invalid }

/-- Modelled from the spec: `DatabaseLoader::convert_documentation` is an
unimplemented `todo!()` stub in `database.rs`; per spec section 6 the
optional documentation links carry their fields through unchanged. -/
def convertDocumentation (raw : Option DocumentationLinksRaw) :
    Except DatabaseError (Option DocumentationLinks) :=
  .ok (raw.map fun d =>
    { kernelOrg := d.kernelOrg, manPages := d.manPages,
      distributionDocs := d.distributionDocs })

/-- `DatabaseLoader::convert_raw_parameter`: the versions record is accepted
but unused (`_raw_versions` in the source). -/
def convertRawParameter (rawDef : ParameterDefinitionRaw)
    (_rawVersions : Option ParameterVersionsRaw) : Except DatabaseError Parameter :=
  match parseProcessor rawDef.processor with
  | .error e => .error e
  | .ok processor =>
    match convertDistributions rawDef.distributions with
    | .error e => .error e
    | .ok distributions =>
      match convertExamples rawDef.examples with
      | .error e => .error e
      | .ok examples =>
        match convertDocumentation rawDef.documentation with
        | .error e => .error e
        | .ok documentation =>
          .ok { name := rawDef.name, processor, description := rawDef.description,
                deprecated := rawDef.deprecated.getD false,
                selectors := rawDef.selectors.getD [],
                syntaxDef :=
                  { validatorType := rawDef.syntaxDef.validatorType,
                    format := rawDef.syntaxDef.format,
                    config := rawDef.syntaxDef.config },
                distributions, examples, documentation }

/-- The `ParameterSource` trait from `database.rs`, as a record of its four
methods. -/
structure ParameterSource where
  listParameters : Except DatabaseError (List String)
  getParameterDefinition : String → Except DatabaseError (Option ParameterDefinitionRaw)
  getParameterVersions : String → Except DatabaseError (Option ParameterVersionsRaw)
  getSubparameters : String → Except DatabaseError (List String)

/-- One override step of `load_parameter`: a `Some` from the present source
replaces the whole record held so far. -/
def overrideOpt {α : Type} (newVal acc : Option α) : Option α :=
  match newVal with
  | some x => some x
  | none => acc

/-- The source-scanning loop of `DatabaseLoader::load_parameter`: scan the
sources in order, a `Some` from a later source replacing the whole record
held so far, both for definitions and versions. -/
def loadRaw (name : String) :
    List ParameterSource → Option ParameterDefinitionRaw →
    Option ParameterVersionsRaw →
    Except DatabaseError (Option ParameterDefinitionRaw × Option ParameterVersionsRaw)
  | [], defAcc, verAcc => .ok (defAcc, verAcc)
  | src :: rest, defAcc, verAcc =>
    match src.getParameterDefinition name with
    | .error e => .error e
    | .ok d =>
      match src.getParameterVersions name with
      | .error e => .error e
      | .ok v =>
        loadRaw name rest (overrideOpt d defAcc) (overrideOpt v verAcc)

/-- `DatabaseLoader::load_parameter`. -/
def loadParameter (sources : List ParameterSource) (name : String) :
    Except DatabaseError (Option Parameter) :=
  match loadRaw name sources none none with
  | .error e => .error e
  | .ok (defOpt, verOpt) =>
    match defOpt with
    | some d =>
      match convertRawParameter d verOpt with
      | .error e => .error e
      | .ok p => .ok (some p)
    | none => .ok none

/-- `DatabaseLoader::get_parent_parameter` on a character list: the prefix
before the rightmost slash, if any. -/
def parentOf : List Char → Option (List Char)
  | [] => none
  | c :: rest =>
    match parentOf rest with
    | some p => some (c :: p)
    | none => if c = '/' then some [] else none

/-- `DatabaseLoader::get_parent_parameter`. -/
def getParentParameter (paramName : String) : Option String :=
  (parentOf paramName.toList).map fun cs => String.mk cs

/-- `HashSet::insert` modelled on a list keeping first insertion order. -/
def insertName (acc : List String) (n : String) : List String :=
  if n ∈ acc then acc else acc ++ [n]

/-- The name-collection loop of `DatabaseLoader::build_database`: the union
of `list_parameters()` over all sources (a `HashSet` in the source, modelled
as a duplicate-free list in first-seen order). -/
def collectNames : List ParameterSource → List String →
    Except DatabaseError (List String)
  | [], acc => .ok acc
  | src :: rest, acc =>
    match src.listParameters with
    | .error e => .error e
    | .ok names => collectNames rest (names.foldl insertName acc)

/-- `LoadedDatabase` from `database.rs`. The two index `HashMap`s are
modelled as functions returning the bucket list, an absent entry being the
empty list (matching how `LoadedDatabase` reads them, with
`unwrap_or_default`). -/
structure LoadedDatabase where
  parameters : List (String × Parameter)
  subparameterIndex : String → List String
  processorIndex : ParameterProcessor → List String

instance : Inhabited LoadedDatabase :=
  ⟨{ parameters := [], subparameterIndex := fun _ => [],
     processorIndex := fun _ => [] }⟩

/-- The pair a successfully loaded parameter contributes to the parameters
map: `none` when the load errors (which aborts the build) or finds no
definition. -/
def loadPair (sources : List ParameterSource) (n : String) :
    Option (String × Parameter) :=
  match loadParameter sources n with
  | .ok (some p) => some (n, p)
  | _ => none

/-- The per-name loop of `DatabaseLoader::build_database`: load each name
(`?` aborts on the first error), record the subparameter link derived from
the name, and insert the parameter. -/
def buildLoop (sources : List ParameterSource) :
    List String → List (String × Parameter) → (String → List String) →
    Except DatabaseError (List (String × Parameter) × (String → List String))
  | [], params, subIdx => .ok (params, subIdx)
  | n :: rest, params, subIdx =>
    match loadParameter sources n with
    | .error e => .error e
    | .ok (some p) =>
      let subIdx' :=
        match getParentParameter n with
        | some parent => fun k => if k = parent then subIdx k ++ [n] else subIdx k
        | none => subIdx
      buildLoop sources rest (params ++ [(n, p)]) subIdx'
    | .ok none => buildLoop sources rest params subIdx

/-- The processor-index loop of `DatabaseLoader::build_database`: each
parameter entry pushes its name onto its processor's bucket, in entry
order. -/
def buildProcessorIndex : List (String × Parameter) →
    ParameterProcessor → List String
  | [], _ => []
  | (n, p) :: rest, proc =>
    if proc = p.processor then n :: buildProcessorIndex rest proc
    else buildProcessorIndex rest proc

/-- `DatabaseLoader::build_database` given the enumeration order of the
collected name set (the source iterates a `HashSet`, whose order is
unspecified). -/
def buildDatabaseWith (sources : List ParameterSource) (paramNames : List String) :
    Except DatabaseError LoadedDatabase :=
  match buildLoop sources paramNames [] (fun _ => []) with
  | .error e => .error e
  | .ok (params, subIdx) =>
    .ok { parameters := params, subparameterIndex := subIdx,
          processorIndex := buildProcessorIndex params }

/-- `DatabaseLoader::build_database`, enumerating the collected names in
first-seen order. -/
def buildDatabase (sources : List ParameterSource) :
    Except DatabaseError LoadedDatabase :=
  match collectNames sources [] with
  | .error e => .error e
  | .ok names => buildDatabaseWith sources names

/-- Last `some` of a list of options, seeded with an accumulator: the value
the source-scanning loop of `load_parameter` retains. -/
def lastSomeFrom {α : Type} : Option α → List (Option α) → Option α
  | acc, [] => acc
  | acc, o :: rest => lastSomeFrom (overrideOpt o acc) rest

/-- Last `some` of a list of options. -/
def lastSome {α : Type} (l : List (Option α)) : Option α :=
  lastSomeFrom none l

/-- `DistributionInfo` from `probe.rs`. -/
structure DistributionInfo where
  id : String
  versionId : String
  variantId : Option String
  name : String

/-- `SystemProbe` from `probe.rs`: tag sets modelled as lists. -/
structure SystemProbe where
  hardwareTags : List String
  softwareTags : List String
  distribution : DistributionInfo

/-- `QueryMode` from `query.rs`; the `Default` impl picks `And`. -/
inductive QueryMode where
  | and
  | or
deriving DecidableEq, Repr

/-- `DistributionQuery` from `query.rs`. -/
structure DistributionQuery where
  id : String
  version : Option String

/-- `QueryParameters` from `query.rs`; the compiled name regex is modelled
as its match predicate. -/
structure QueryParameters where
  queryMode : QueryMode
  name : Option (String → Bool)
  processor : Option ParameterProcessor
  pciIds : List (Nat × Nat)
  usbIds : List (Nat × Nat)
  arch : Option String
  applicable : Option Bool
  distribution : Option DistributionQuery
  deprecated : Option Bool
  flags : List String

/-- `QueryParameters::default()` with a chosen mode: every filter field
unset. -/
def QueryParameters.unconstrained (mode : QueryMode) : QueryParameters :=
  { queryMode := mode, name := none, processor := none, pciIds := [],
    usbIds := [], arch := none, applicable := none, distribution := none,
    deprecated := none, flags := [] }

/-- Modelled from the spec: `KCmdline::check_name_condition` is an
unimplemented `todo!()` stub in `lib.rs`; per spec section 4.3 the
condition is the name-pattern match, vacuously true when the name filter
is unset. -/
def checkNameCondition (param : Parameter) (query : QueryParameters) : Bool :=
  match query.name with
  | none => true
  | some pat => pat param.name

/-- Modelled from the spec: `KCmdline::check_processor_condition` is an
unimplemented `todo!()` stub in `lib.rs`; per spec section 4.3 the
condition is processor equality, vacuously true when the processor filter
is unset. -/
def checkProcessorCondition (param : Parameter) (query : QueryParameters) : Bool :=
  match query.processor with
  | none => true
  | some proc => param.processor = proc

/-- Modelled from the spec: `KCmdline::check_hardware_condition` is an
unimplemented `todo!()` stub in `lib.rs`; per spec section 4.3 the
condition is hardware-id membership of the queried PCI/USB pairs among the
probe-supplied identifiers, vacuously true when both id lists are unset. -/
def checkHardwareCondition (probe : SystemProbe) (param : Parameter)
    (query : QueryParameters) : Bool :=
  if query.pciIds = [] ∧ query.usbIds = [] then true
  else
    (query.pciIds.any fun pr =>
      param.selectors.contains ("pci:" ++ toString pr.1 ++ ":" ++ toString pr.2) &&
      probe.hardwareTags.contains ("pci:" ++ toString pr.1 ++ ":" ++ toString pr.2)) ||
    (query.usbIds.any fun pr =>
      param.selectors.contains ("usb:" ++ toString pr.1 ++ ":" ++ toString pr.2) &&
      probe.hardwareTags.contains ("usb:" ++ toString pr.1 ++ ":" ++ toString pr.2))

/-- Modelled from the spec: `KCmdline::check_applicability_condition` is an
unimplemented `todo!()` stub in `lib.rs`; per spec section 4.3 the
condition compares the queried applicability flag with whether the
parameter's selectors are contained in the probe's tag set, vacuously true
when the flag is unset. -/
def checkApplicabilityCondition (probe : SystemProbe) (param : Parameter)
    (query : QueryParameters) : Bool :=
  match query.applicable with
  | none => true
  | some want =>
    (param.selectors.all fun s =>
      (probe.hardwareTags ++ probe.softwareTags).contains s) = want

/-- Modelled from the spec: `KCmdline::check_distribution_condition` is an
unimplemented `todo!()` stub in `lib.rs`; per spec section 4.3 the
condition is support-window containment for the queried distribution,
vacuously true when the distribution filter is unset. -/
def checkDistributionCondition (param : Parameter) (query : QueryParameters) : Bool :=
  match query.distribution with
  | none => true
  | some dq =>
    match lookupVal param.distributions dq.id with
    | none => false
    | some sup =>
      match dq.version with
      | none => true
      | some v =>
        (match sup.minVersion with | none => true | some lo => decide (lo ≤ v)) &&
        (match sup.maxVersion with | none => true | some hi => decide (v ≤ hi))

/-- Modelled from the spec: `KCmdline::check_deprecated_condition` is an
unimplemented `todo!()` stub in `lib.rs`; per spec section 4.3 the
condition is deprecated-flag equality, vacuously true when the deprecated
filter is unset. -/
def checkDeprecatedCondition (param : Parameter) (query : QueryParameters) : Bool :=
  match query.deprecated with
  | none => true
  | some want => param.deprecated = want

/-- Modelled from the spec: `KCmdline::check_flags_condition` is an
unimplemented `todo!()` stub in `lib.rs`; per spec section 4.3 the
condition is free-form flag subset containment, vacuously true when the
flag list is unset. -/
def checkFlagsCondition (param : Parameter) (query : QueryParameters) : Bool :=
  if query.flags = [] then true
  else query.flags.all fun f => param.selectors.contains f

/-- `KCmdline` from `lib.rs`: its catalog's parameters (as a list) and the
probe. -/
structure KCmdline where
  catalog : List Parameter
  probe : SystemProbe

/-- `KCmdline::matches_query`: collect the seven condition booleans, then
combine them by the query mode — `And` requires all, `Or` any. -/
def KCmdline.matchesQuery (k : KCmdline) (param : Parameter)
    (query : QueryParameters) : Bool :=
  let conditions :=
    [checkNameCondition param query,
     checkProcessorCondition param query,
     checkHardwareCondition k.probe param query,
     checkApplicabilityCondition k.probe param query,
     checkDistributionCondition param query,
     checkDeprecatedCondition param query,
     checkFlagsCondition param query]
  match query.queryMode with
  | .and => conditions.all fun c => c
  | .or => conditions.any fun c => c

/-- `KCmdline::query_parameters`: filter the catalog by `matches_query`. -/
def KCmdline.queryParameters (k : KCmdline) (query : QueryParameters) :
    List Parameter :=
  k.catalog.filter fun param => k.matchesQuery param query

/-- A purely in-memory `ParameterSource` built from a name list and a
definition table; versions and subparameter enumeration empty. -/
def srcOfDefs (names : List String)
    (defs : String → Option ParameterDefinitionRaw) : ParameterSource :=
  { listParameters := .ok names,
    getParameterDefinition := fun n => .ok (defs n),
    getParameterVersions := fun _ => .ok none,
    getSubparameters := fun _ => .ok [] }

/-- A minimal well-formed raw definition record for a given name. -/
def mkRaw (n : String) : ParameterDefinitionRaw :=
  { name := n, processor := "kernel", description := "d",
    deprecated := none, selectors := none,
    syntaxDef := { validatorType := "boolean", format := "f", config := [] },
    distributions := none, examples := none, documentation := none }

/-- Raw record for `foo` as defined by the lower-priority source: it sets
the deprecated flag and a selector list. -/
def rawFooOld : ParameterDefinitionRaw :=
  { name := "foo", processor := "kernel", description := "old",
    deprecated := some true, selectors := some ["tag-a"],
    syntaxDef := { validatorType := "boolean", format := "f", config := [] },
    distributions := none, examples := none, documentation := none }

/-- Raw record for `foo` as defined by the higher-priority source: it omits
the deprecated flag and the selector list the earlier record set. -/
def rawFooNew : ParameterDefinitionRaw :=
  { name := "foo", processor := "kernel", description := "new",
    deprecated := none, selectors := none,
    syntaxDef := { validatorType := "integer", format := "g", config := [] },
    distributions := none, examples := none, documentation := none }

/-- Two-source stack for the override scenario: both define `foo`. -/
def c1Sources : List ParameterSource :=
  [srcOfDefs ["foo"] (fun n => if n = "foo" then some rawFooOld else none),
   srcOfDefs ["foo"] (fun n => if n = "foo" then some rawFooNew else none)]

/-- Single source with one well-formed parameter and one malformed one
(unknown processor string). -/
def c2Sources : List ParameterSource :=
  [srcOfDefs ["good", "bad"] fun n =>
    if n = "good" then some (mkRaw "good")
    else if n = "bad" then
      some { mkRaw "bad" with processor := "bogus" }
    else none]

/-- Single source defining a parent parameter and a slash-nested child. -/
def c8Sources : List ParameterSource :=
  [srcOfDefs ["pci", "pci/resource_alignment"] fun n =>
    if n = "pci" ∨ n = "pci/resource_alignment" then some (mkRaw n) else none]

/-- The database built from `c8Sources`. -/
def c8Db : LoadedDatabase :=
  match buildDatabase c8Sources with
  | .ok db => db
  | .error _ => default

/-- Single source defining two children of the same parent. -/
def c9Sources : List ParameterSource :=
  [srcOfDefs ["p/a", "p/b"] fun n =>
    if n = "p/a" ∨ n = "p/b" then some (mkRaw n) else none]

/-- The database built from `c9Sources` enumerating `p/a` first. -/
def c9DbA : LoadedDatabase :=
  match buildDatabaseWith c9Sources ["p/a", "p/b"] with
  | .ok db => db
  | .error _ => default

/-- The database built from `c9Sources` enumerating `p/b` first. -/
def c9DbB : LoadedDatabase :=
  match buildDatabaseWith c9Sources ["p/b", "p/a"] with
  | .ok db => db
  | .error _ => default

/-! Theorems. -/

/-- C10: `get_validator` ignores its processor argument, so for every pair
of processors and every syntax-type name it resolves to the same validator
(or to none for both); resolution depends only on the name. -/
theorem get_validator_ignores_processor (reg : StandardValidatorRegistry)
    (p q : ParameterProcessor) (name : String) :
    reg.getValidator p name = reg.getValidator q name := rfl

/-- C3 counterexample: registering the same name twice — the second call
collides with an explicitly registered (non-built-in) entry — still
returns `Ok`, contradicting the claimed name-collision error. -/
theorem register_collision_counterexample :
    exceptIsOk
      ((StandardValidatorRegistry.new.registerValidator "custom"
          (ValidatorImpl.userV 0)).bind
        fun r => r.registerValidator "custom" (ValidatorImpl.userV 1)) = true := rfl

/-- C3 (amended): `register_validator` always succeeds — the name-collision
check is commented out in the source — inserting the validator into the
processor-specific table, where it shadows any previous entry of that name
while leaving lookups of every other name unchanged. -/
theorem register_validator_always_ok (reg : StandardValidatorRegistry)
    (name : String) (v : ValidatorImpl) :
    exceptIsOk (reg.registerValidator name v) = true
    ∧ (∀ p : ParameterProcessor,
        Except.map (fun r => r.getValidator p name) (reg.registerValidator name v)
          = .ok (some v))
    ∧ (∀ (p : ParameterProcessor) (other : String), other ≠ name →
        Except.map (fun r => r.getValidator p other) (reg.registerValidator name v)
          = .ok (reg.getValidator p other)) := by
  refine ⟨rfl, fun p => ?_, fun p other hne => ?_⟩
  · simp [StandardValidatorRegistry.registerValidator,
      StandardValidatorRegistry.getValidator, insertVal, lookupVal, Except.map]
  · simp [StandardValidatorRegistry.registerValidator,
      StandardValidatorRegistry.getValidator, insertVal, lookupVal,
      Except.map, Ne.symm hne]

/-- C3 witness: registering a fresh name on the standard registry succeeds,
the new entry is found by lookup, and the built-in `cpu_list` entry is
untouched. -/
theorem register_validator_always_ok_witness :
    ("cpu_list" : String) ≠ "custom"
    ∧ Except.map (fun r => r.getValidator ParameterProcessor.kernel "custom")
        (StandardValidatorRegistry.new.registerValidator "custom" (ValidatorImpl.userV 7))
        = .ok (some (ValidatorImpl.userV 7))
    ∧ Except.map (fun r => r.getValidator ParameterProcessor.kernel "cpu_list")
        (StandardValidatorRegistry.new.registerValidator "custom" (ValidatorImpl.userV 7))
        = .ok (StandardValidatorRegistry.new.getValidator ParameterProcessor.kernel "cpu_list") :=
  ⟨by decide,
   (register_validator_always_ok StandardValidatorRegistry.new "custom"
      (ValidatorImpl.userV 7)).2.1 ParameterProcessor.kernel,
   (register_validator_always_ok StandardValidatorRegistry.new "custom"
      (ValidatorImpl.userV 7)).2.2 ParameterProcessor.kernel "cpu_list" (by decide)⟩

/-- C4: the size validator panics (modelled `none`) on a digit sequence
whose value is `2 ^ 64`, and the cpu-list validator panics on one whose
value is `2 ^ 32`, instead of producing a `ValidationResult` — the claimed
totality fails at these inputs. -/
theorem validator_panics_on_overflow :
    sizeValidate "18446744073709551616" = none
    ∧ cpuListValidate "4294967296" [] = none :=
  ⟨rfl, rfl⟩

/-- C7 counterexample: `foo/bar` contains a path separator, yet the
validator returns a Warning (the suffix check runs first), not the Error
the claim requires for every separator-containing value. -/
theorem systemd_unit_path_separator_counterexample :
    systemdUnitValidate "foo/bar" =
      ValidationResult.Warning "Unit \x27foo/bar\x27 doesn\x27t have a recognized suffix"
    ∧ containsPathSeparator "foo/bar" = true :=
  ⟨rfl, rfl⟩

/-- C7 (amended): the empty string gives an Error; a non-empty value
without a recognized suffix gives a Warning even when it contains a path
separator; a value with a recognized suffix gives an Error when it
contains `/` or `\` and Valid otherwise. -/
theorem systemd_unit_validate_characterization (value : String) :
    (value = "" →
      systemdUnitValidate value = ValidationResult.Error "Unit name cannot be empty")
    ∧ (value ≠ "" → hasRecognizedSuffix value = false →
        systemdUnitValidate value =
          ValidationResult.Warning
            ("Unit \x27" ++ value ++ "\x27 doesn\x27t have a recognized suffix"))
    ∧ (value ≠ "" → hasRecognizedSuffix value = true →
        containsPathSeparator value = true →
        systemdUnitValidate value =
          ValidationResult.Error "Unit names cannot contain path separators")
    ∧ (value ≠ "" → hasRecognizedSuffix value = true →
        containsPathSeparator value = false →
        systemdUnitValidate value = ValidationResult.Valid) := by
  refine ⟨fun h1 => ?_, fun h1 h2 => ?_, fun h1 h2 h3 => ?_, fun h1 h2 h3 => ?_⟩
  · simp [systemdUnitValidate, h1]
  · simp [systemdUnitValidate, h1, h2]
  · simp [systemdUnitValidate, h1, h2, h3]
  · simp [systemdUnitValidate, h1, h2, h3]

/-- C7 witness: a separator-containing name with a recognized suffix is
rejected with the path-separator Error. -/
theorem systemd_unit_validate_characterization_witness :
    ("a/b.service" : String) ≠ ""
    ∧ hasRecognizedSuffix "a/b.service" = true
    ∧ containsPathSeparator "a/b.service" = true
    ∧ systemdUnitValidate "a/b.service" =
        ValidationResult.Error "Unit names cannot contain path separators" :=
  ⟨by decide, rfl, rfl,
   (systemd_unit_validate_characterization "a/b.service").2.2.1
     (by decide) rfl rfl⟩

/-- C5: a query with every filter field unset matches every parameter —
each of the seven conditions is vacuously true — so under both And and Or
modes `query_parameters` returns the whole catalog. -/
theorem unconstrained_query_returns_catalog (cat : List Parameter)
    (probe : SystemProbe) (mode : QueryMode) :
    KCmdline.queryParameters ⟨cat, probe⟩ (QueryParameters.unconstrained mode) = cat := by
  unfold KCmdline.queryParameters
  apply List.filter_eq_self.mpr
  intro param _
  cases mode <;> rfl

/-- The cpu-list loop returns Valid exactly when every part is acceptable
per `cpuItemOk`. -/
theorem validate_cpu_items_valid_iff (se : Bool) :
    ∀ parts : List (List Char),
      validateCpuItems parts se = some ValidationResult.Valid
        ↔ (parts.all fun item => cpuItemOk item se) = true := by
  intro parts
  induction parts with
  | nil => simp [validateCpuItems]
  | cons part rest ih =>
    rw [List.all_cons, Bool.and_eq_true]
    cases hp : parseCpuItem (rustTrimChars part) with
    | none =>
      simp [validateCpuItems, hp, cpuItemOk]
    | some trip =>
      obtain ⟨e, d1, d2opt⟩ := trip
      by_cases h1 : (4294967296 : Nat) ≤ natOfDigits d1
      · have hlt : ¬ natOfDigits d1 < 4294967296 := Nat.not_lt.mpr h1
        simp [validateCpuItems, hp, cpuItemOk, h1, hlt]
      · have hlt2 : natOfDigits d1 < 4294967296 := Nat.not_le.mp h1
        by_cases hc : e = true ∧ se = false
        · rcases hc with ⟨he, hse⟩
          subst he
          subst hse
          simp [validateCpuItems, hp, cpuItemOk, h1, hlt2]
        · have hor : (!e || se) = true := by
            cases e <;> cases se <;> simp_all
          cases d2opt with
          | none =>
            simp [validateCpuItems, hp, cpuItemOk, h1, hc, hor, hlt2, ih]
          | some d2 =>
            by_cases h3 : (4294967296 : Nat) ≤ natOfDigits d2
            · have hlt3 : ¬ natOfDigits d2 < 4294967296 := Nat.not_lt.mpr h3
              simp [validateCpuItems, hp, cpuItemOk, h1, hc, h3, hlt3]
            · have hlt3 : natOfDigits d2 < 4294967296 := Nat.not_le.mp h3
              by_cases h4 : natOfDigits d2 ≤ natOfDigits d1
              · have hlt4 : ¬ natOfDigits d1 < natOfDigits d2 := Nat.not_lt.mpr h4
                simp [validateCpuItems, hp, cpuItemOk, h1, hc, h3, h4, hlt4]
              · have hlt4 : natOfDigits d1 < natOfDigits d2 := Nat.not_le.mp h4
                simp [validateCpuItems, hp, cpuItemOk, h1, hc, h3, h4, hor,
                  hlt2, hlt3, hlt4, ih]

/-- C6 counterexample: the claim's untrimmed-regex reading fails twice —
the value &quot; 0&quot; is accepted although its single item does not match
the regex (the code trims first), and &quot;4294967296&quot; matches the
regex on every item yet makes the validator panic instead of accepting. -/
theorem cpu_list_regex_counterexample :
    validateCpuList " 0" false = some ValidationResult.Valid
    ∧ parseCpuItem " 0".toList = none
    ∧ validateCpuList "4294967296" false = none :=
  ⟨rfl, rfl, rfl⟩

/-- C6 (amended): with flag support unset the cpu-list validator accepts
exactly the values whose comma-separated items, after trimming whitespace,
match `^(\^?)(\d+)(-(\d+))?$` with all digit values below `2 ^ 32`, where
a caret is only accepted when exclusion is supported and a range must be
strictly increasing; digit sequences of `2 ^ 32` or more panic instead of
returning a result. The spec's three examples behave as claimed. -/
theorem cpu_list_accepts_characterization :
    (∀ (s : String) (se : Bool),
      validateCpuList s se = some ValidationResult.Valid ↔ specCpuAccepts s se = true)
    ∧ (∀ (config : Config) (s : String), cfgBool config "supports_flags" = false →
        cpuListValidate s config = validateCpuList s (cfgBool config "supports_exclusion"))
    ∧ validateCpuList "0,2-4" false = some ValidationResult.Valid
    ∧ validateCpuList "^1" false =
        some (ValidationResult.Error "CPU exclusion (^) not supported")
    ∧ validateCpuList "^1" true = some ValidationResult.Valid
    ∧ validateCpuList "5-3" false =
        some (ValidationResult.Error "Invalid CPU range: 5-3") := by
  refine ⟨fun s se => ?_, fun config s h => ?_, rfl, rfl, rfl, rfl⟩
  · exact validate_cpu_items_valid_iff se (splitChar ',' s.toList)
  · simp [cpuListValidate, h, validateCpuList]

/-- C6 witness: a configuration enabling exclusion but not flags routes
through the plain cpu-list path and accepts a caret item and a range. -/
theorem cpu_list_accepts_characterization_witness :
    cfgBool [("supports_exclusion", TomlValue.boolVal true)] "supports_flags" = false
    ∧ cpuListValidate "^1,2-5" [("supports_exclusion", TomlValue.boolVal true)]
        = some ValidationResult.Valid
    ∧ specCpuAccepts "^1,2-5" true = true := by
  refine ⟨rfl, ?_, rfl⟩
  rw [cpu_list_accepts_characterization.2.1
    [("supports_exclusion", TomlValue.boolVal true)] "^1,2-5" rfl]
  exact (cpu_list_accepts_characterization.1 "^1,2-5"
    (cfgBool [("supports_exclusion", TomlValue.boolVal true)] "supports_exclusion")).mpr rfl

/-- The source-scanning loop retains the last `some` each getter returned,
for definitions and versions alike. -/
theorem loadRaw_eq (name : String) (sources : List ParameterSource) :
    ∀ (ds : List (Option ParameterDefinitionRaw))
      (vs : List (Option ParameterVersionsRaw))
      (d0 : Option ParameterDefinitionRaw) (v0 : Option ParameterVersionsRaw),
      sources.map (fun s => s.getParameterDefinition name) = ds.map Except.ok →
      sources.map (fun s => s.getParameterVersions name) = vs.map Except.ok →
      loadRaw name sources d0 v0 = .ok (lastSomeFrom d0 ds, lastSomeFrom v0 vs) := by
  induction sources with
  | nil =>
    intro ds vs d0 v0 hd hv
    cases ds with
    | nil =>
      cases vs with
      | nil => rfl
      | cons v vtl => simp at hv
    | cons d dtl => simp at hd
  | cons src rest ih =>
    intro ds vs d0 v0 hd hv
    cases ds with
    | nil => simp at hd
    | cons d dtl =>
      cases vs with
      | nil => simp at hv
      | cons v vtl =>
        simp only [List.map_cons, List.cons.injEq] at hd hv
        simp only [loadRaw, hd.1, hv.1]
        exact ih dtl vtl (overrideOpt d d0) (overrideOpt v v0) hd.2 hv.2

/-- Specialization of `loadRaw_eq` to the empty accumulators `load_parameter`
starts from. -/
theorem loadRaw_none_eq (name : String) (sources : List ParameterSource)
    (ds : List (Option ParameterDefinitionRaw))
    (vs : List (Option ParameterVersionsRaw))
    (hd : sources.map (fun s => s.getParameterDefinition name) = ds.map Except.ok)
    (hv : sources.map (fun s => s.getParameterVersions name) = vs.map Except.ok) :
    loadRaw name sources none none = .ok (lastSome ds, lastSome vs) :=
  loadRaw_eq name sources ds vs none none hd hv

/-- `load_parameter` converts the last definition record any source
returned, ignoring every earlier record. -/
theorem loadParameter_eq (sources : List ParameterSource) (name : String)
    (ds : List (Option ParameterDefinitionRaw))
    (vs : List (Option ParameterVersionsRaw))
    (hd : sources.map (fun s => s.getParameterDefinition name) = ds.map Except.ok)
    (hv : sources.map (fun s => s.getParameterVersions name) = vs.map Except.ok) :
    loadParameter sources name =
      match lastSome ds with
      | none => .ok none
      | some d => Except.map some (convertRawParameter d (lastSome vs)) := by
  unfold loadParameter
  rw [loadRaw_none_eq name sources ds vs hd hv]
  cases lastSome ds with
  | none => rfl
  | some d =>
    show (match convertRawParameter d (lastSome vs) with
      | .error e => Except.error e
      | .ok p => Except.ok (some p))
      = Except.map some (convertRawParameter d (lastSome vs))
    cases convertRawParameter d (lastSome vs) with
    | error e => rfl
    | ok p => rfl

/-- A successful pass of the build loop appends exactly the loadable
parameters in iteration order, and extends every subparameter bucket with
the loadable slash-names whose rightmost-slash parent is that bucket's
key. -/
theorem buildLoop_ok_spec (sources : List ParameterSource) :
    ∀ (names : List String) (params0 : List (String × Parameter))
      (sub0 : String → List String) (params : List (String × Parameter))
      (sub : String → List String),
      buildLoop sources names params0 sub0 = .ok (params, sub) →
      params = params0 ++ names.filterMap (loadPair sources)
      ∧ ∀ k, sub k = sub0 k ++
          names.filter (fun n =>
            (loadPair sources n).isSome && decide (getParentParameter n = some k)) := by
  intro names
  induction names with
  | nil =>
    intro params0 sub0 params sub h
    simp only [buildLoop, Except.ok.injEq, Prod.mk.injEq] at h
    obtain ⟨h1, h2⟩ := h
    subst h1
    subst h2
    simp
  | cons n rest ih =>
    intro params0 sub0 params sub h
    simp only [buildLoop] at h
    cases hl : loadParameter sources n with
    | error e =>
      rw [hl] at h
      exact Except.noConfusion h
    | ok r =>
      rw [hl] at h
      cases r with
      | none =>
        have hrec := ih params0 sub0 params sub h
        have hlp : loadPair sources n = none := by simp [loadPair, hl]
        refine ⟨?_, fun k => ?_⟩
        · rw [hrec.1, List.filterMap_cons_none hlp]
        · rw [hrec.2 k, List.filter_cons]
          simp [hlp]
      | some p =>
        have hlp : loadPair sources n = some (n, p) := by simp [loadPair, hl]
        cases hpp : getParentParameter n with
        | none =>
          rw [hpp] at h
          have hrec := ih (params0 ++ [(n, p)]) sub0 params sub h
          refine ⟨?_, fun k => ?_⟩
          · rw [hrec.1, List.filterMap_cons_some hlp]
            simp
          · rw [hrec.2 k, List.filter_cons]
            simp [hlp, hpp]
        | some parent =>
          rw [hpp] at h
          have hrec := ih (params0 ++ [(n, p)])
            (fun k => if k = parent then sub0 k ++ [n] else sub0 k) params sub h
          refine ⟨?_, fun k => ?_⟩
          · rw [hrec.1, List.filterMap_cons_some hlp]
            simp
          · rw [hrec.2 k, List.filter_cons]
            by_cases hk : k = parent
            · subst hk
              simp [hlp, hpp]
            · simp [hlp, hpp, hk, Ne.symm hk]

/-- If the build loop succeeds, every listed name's load succeeded. -/
theorem buildLoop_loads_ok (sources : List ParameterSource) :
    ∀ (names : List String) (params0 : List (String × Parameter))
      (sub0 : String → List String),
      exceptIsOk (buildLoop sources names params0 sub0) = true →
      ∀ n ∈ names, exceptIsOk (loadParameter sources n) = true := by
  intro names
  induction names with
  | nil => intro _ _ _ n hn; simp at hn
  | cons m rest ih =>
    intro params0 sub0 h n hn
    simp only [buildLoop] at h
    cases hl : loadParameter sources m with
    | error e =>
      rw [hl] at h
      simp [exceptIsOk] at h
    | ok r =>
      rw [hl] at h
      rcases List.mem_cons.mp hn with rfl | hn'
      · rw [hl]; rfl
      · cases r with
        | none => exact ih _ _ h n hn'
        | some p =>
          cases hpp : getParentParameter m <;> rw [hpp] at h
          · exact ih _ _ h n hn'
          · exact ih _ _ h n hn'

/-- The pair produced by `loadPair` is keyed by the loaded name itself. -/
theorem loadPair_key (sources : List ParameterSource) (m : String)
    (pr : String × Parameter) (h : loadPair sources m = some pr) : pr.1 = m := by
  unfold loadPair at h
  cases hl : loadParameter sources m with
  | error e => rw [hl] at h; cases h
  | ok r =>
    rw [hl] at h
    cases r with
    | none => cases h
    | some p => cases h; rfl

/-- Looking a name up in the filter-mapped parameter list finds its own
load result exactly when the name was enumerated. -/
theorem lookup_filterMap_loadPair (sources : List ParameterSource) :
    ∀ (names : List String) (n : String),
      lookupVal (names.filterMap (loadPair sources)) n =
        if n ∈ names then (loadPair sources n).map Prod.snd else none := by
  intro names
  induction names with
  | nil => intro n; simp [lookupVal]
  | cons m rest ih =>
    intro n
    cases hm : loadPair sources m with
    | none =>
      rw [List.filterMap_cons_none hm, ih n]
      by_cases hnm : n = m
      · subst hnm
        simp [hm]
      · simp [List.mem_cons, hnm]
    | some pr =>
      have hkey := loadPair_key sources m pr hm
      obtain ⟨k, v⟩ := pr
      simp only at hkey
      subst hkey
      rw [List.filterMap_cons_some hm]
      by_cases hnm : n = k
      · subst hnm
        simp [lookupVal, hm]
      · simp only [lookupVal]
        rw [if_neg (Ne.symm hnm), ih n]
        simp [List.mem_cons, hnm]

/-- Membership in the processor index is exactly having a parameter entry
with that processor. -/
theorem mem_buildProcessorIndex :
    ∀ (entries : List (String × Parameter)) (proc : ParameterProcessor) (n : String),
      n ∈ buildProcessorIndex entries proc
        ↔ ∃ p, (n, p) ∈ entries ∧ proc = p.processor := by
  intro entries
  induction entries with
  | nil => simp [buildProcessorIndex]
  | cons ep rest ih =>
    obtain ⟨m, p⟩ := ep
    intro proc n
    simp only [buildProcessorIndex]
    by_cases hp : proc = p.processor
    · rw [if_pos hp]
      constructor
      · intro h
        rcases List.mem_cons.mp h with rfl | h'
        · exact ⟨p, List.mem_cons_self _ _, hp⟩
        · obtain ⟨q, hq, he⟩ := (ih proc n).mp h'
          exact ⟨q, List.mem_cons_of_mem _ hq, he⟩
      · rintro ⟨q, hq, he⟩
        rcases List.mem_cons.mp hq with heq | hq'
        · injection heq with h1 h2
          subst h1
          exact List.mem_cons_self _ _
        · exact List.mem_cons_of_mem _ ((ih proc n).mpr ⟨q, hq', he⟩)
    · rw [if_neg hp]
      rw [ih]
      constructor
      · rintro ⟨q, hq, he⟩
        exact ⟨q, List.mem_cons_of_mem _ hq, he⟩
      · rintro ⟨q, hq, he⟩
        rcases List.mem_cons.mp hq with heq | hq'
        · injection heq with h1 h2
          subst h2
          exact absurd he hp
        · exact ⟨q, hq', he⟩

/-- With the collected names known, `build_database` is the per-name loop
over them. -/
theorem buildDatabase_eq_with (sources : List ParameterSource)
    (allNames : List String) (hn : collectNames sources [] = .ok allNames) :
    buildDatabase sources = buildDatabaseWith sources allNames := by
  unfold buildDatabase
  rw [hn]

/-- Structure of a successfully built database: parameters, subparameter
index and processor index are the stated functions of the enumerated
names. -/
theorem buildDatabaseWith_ok_spec (sources : List ParameterSource)
    (names : List String) (db : LoadedDatabase)
    (h : buildDatabaseWith sources names = .ok db) :
    db.parameters = names.filterMap (loadPair sources)
    ∧ (∀ k, db.subparameterIndex k =
        names.filter (fun n =>
          (loadPair sources n).isSome && decide (getParentParameter n = some k)))
    ∧ db.processorIndex = buildProcessorIndex (names.filterMap (loadPair sources)) := by
  unfold buildDatabaseWith at h
  cases hb : buildLoop sources names [] (fun _ => []) with
  | error e =>
    rw [hb] at h
    exact Except.noConfusion h
  | ok pr =>
    rw [hb] at h
    obtain ⟨params, sub⟩ := pr
    have h2 : Except.ok (ε := DatabaseError)
        ({ parameters := params, subparameterIndex := sub,
           processorIndex := buildProcessorIndex params } : LoadedDatabase)
          = Except.ok db := h
    injection h2 with h3
    subst h3
    have hs := buildLoop_ok_spec sources names [] (fun _ => []) params sub hb
    refine ⟨?_, fun k => ?_, ?_⟩
    · simpa using hs.1
    · simpa using hs.2 k
    · show buildProcessorIndex params = _
      rw [hs.1]
      simp

/-- C1: for a name the sources define, the built database holds exactly the
conversion of the last (highest-priority) source's entire raw record — the
result depends only on that record, so no field of an earlier source's
record survives, even when the later record omits optional fields. -/
theorem build_keeps_last_source_record
    (sources : List ParameterSource) (name : String)
    (ds : List (Option ParameterDefinitionRaw))
    (vs : List (Option ParameterVersionsRaw))
    (allNames : List String) (rawDef : ParameterDefinitionRaw)
    (hn : collectNames sources [] = .ok allNames)
    (hmem : name ∈ allNames)
    (hd : sources.map (fun s => s.getParameterDefinition name) = ds.map Except.ok)
    (hv : sources.map (fun s => s.getParameterVersions name) = vs.map Except.ok)
    (hlast : lastSome ds = some rawDef)
    (hok : exceptIsOk (buildDatabase sources) = true) :
    Except.map (fun db => lookupVal db.parameters name) (buildDatabase sources)
      = Except.map some (convertRawParameter rawDef (lastSome vs)) := by
  rw [buildDatabase_eq_with sources allNames hn] at hok ⊢
  cases hb : buildDatabaseWith sources allNames with
  | error e =>
    rw [hb] at hok
    simp [exceptIsOk] at hok
  | ok db =>
    have hspec := buildDatabaseWith_ok_spec sources allNames db hb
    have hload : loadParameter sources name
        = Except.map some (convertRawParameter rawDef (lastSome vs)) := by
      have h := loadParameter_eq sources name ds vs hd hv
      rw [hlast] at h
      exact h
    have hloadok : exceptIsOk (loadParameter sources name) = true := by
      have hbl : exceptIsOk (buildLoop sources allNames [] (fun _ => [])) = true := by
        unfold buildDatabaseWith at hb
        cases hbl2 : buildLoop sources allNames [] (fun _ => []) with
        | error e => rw [hbl2] at hb; exact Except.noConfusion hb
        | ok pr => rfl
      exact buildLoop_loads_ok sources allNames _ _ hbl name hmem
    cases hcv : convertRawParameter rawDef (lastSome vs) with
    | error e =>
      rw [hcv] at hload
      rw [hload] at hloadok
      simp [exceptIsOk, Except.map] at hloadok
    | ok p =>
      have hlp : loadPair sources name = some (name, p) := by
        rw [hcv] at hload
        simp [loadPair, hload, Except.map]
      show Except.ok (lookupVal db.parameters name) = Except.ok (some p)
      rw [hspec.1, lookup_filterMap_loadPair sources allNames name,
        if_pos hmem, hlp]
      rfl

/-- C1 witness: two sources both define `foo`; the earlier record sets the
deprecated flag and a selector, the later record omits both; the built
database holds exactly the later record's conversion, whose deprecated
flag is false. -/
theorem build_keeps_last_source_record_witness :
    collectNames c1Sources [] = .ok ["foo"]
    ∧ lastSome [some rawFooOld, some rawFooNew] = some rawFooNew
    ∧ rawFooOld.deprecated = some true
    ∧ Except.map (fun db => lookupVal db.parameters "foo") (buildDatabase c1Sources)
        = Except.map some (convertRawParameter rawFooNew none)
    ∧ Except.map (fun p => p.deprecated) (convertRawParameter rawFooNew none)
        = .ok false
    ∧ Except.map (fun p => p.selectors) (convertRawParameter rawFooNew none)
        = .ok [] :=
  ⟨rfl, rfl, rfl,
   build_keeps_last_source_record c1Sources "foo"
     [some rawFooOld, some rawFooNew] [none, none] ["foo"] rawFooNew
     rfl (by decide) rfl rfl rfl rfl,
   rfl, rfl⟩

/-- C2 counterexample: a source set with one well-formed parameter and one
malformed one (unknown processor). The well-formed parameter is loadable,
yet `build_database` returns only the malformed record's error — no
partial database, and there is no per-parameter error list at all. -/
theorem build_abort_counterexample :
    (loadPair c2Sources "good").isSome = true
    ∧ buildDatabase c2Sources
        = .error (DatabaseError.formatError "Unknown processor: bogus") :=
  ⟨rfl, rfl⟩

/-- C2 (amended): a malformed individual parameter record aborts the whole
build — if any collected name fails to load, `build_database` fails; it
never returns a partial database with an error list. -/
theorem malformed_record_aborts_build
    (sources : List ParameterSource) (allNames : List String) (n : String)
    (e : DatabaseError)
    (hn : collectNames sources [] = .ok allNames)
    (hmem : n ∈ allNames)
    (hbad : loadParameter sources n = .error e) :
    exceptIsOk (buildDatabase sources) = false := by
  rw [buildDatabase_eq_with sources allNames hn]
  cases hb : buildDatabaseWith sources allNames with
  | error e2 => rfl
  | ok db =>
    exfalso
    unfold buildDatabaseWith at hb
    cases hbl : buildLoop sources allNames [] (fun _ => []) with
    | error e3 =>
      rw [hbl] at hb
      exact Except.noConfusion hb
    | ok pr =>
      have hok := buildLoop_loads_ok sources allNames [] (fun _ => [])
        (by rw [hbl]; rfl) n hmem
      rw [hbad] at hok
      simp [exceptIsOk] at hok

/-- C2 witness: in the concrete two-parameter source set, the malformed
name `bad` fails to load and the whole build fails. -/
theorem malformed_record_aborts_build_witness :
    collectNames c2Sources [] = .ok ["good", "bad"]
    ∧ ("bad" ∈ ["good", "bad"])
    ∧ loadParameter c2Sources "bad"
        = .error (DatabaseError.formatError "Unknown processor: bogus")
    ∧ exceptIsOk (buildDatabase c2Sources) = false :=
  ⟨rfl, by decide, rfl,
   malformed_record_aborts_build c2Sources ["good", "bad"] "bad"
     (DatabaseError.formatError "Unknown processor: bogus") rfl (by decide) rfl⟩

/-- C8: in every successfully built database, a name appears in the
subparameter bucket of `parent` exactly when it was enumerated, loadable,
and its prefix before the rightmost slash is `parent` — parent linkage is
derived solely from the name, with no independent parent declaration. -/
theorem subparameter_index_from_rightmost_slash
    (sources : List ParameterSource) (db : LoadedDatabase)
    (allNames : List String)
    (hn : collectNames sources [] = .ok allNames)
    (hb : buildDatabase sources = .ok db) :
    ∀ (parent n : String),
      n ∈ db.subparameterIndex parent ↔
        (n ∈ allNames ∧ (loadPair sources n).isSome = true
          ∧ getParentParameter n = some parent) := by
  rw [buildDatabase_eq_with sources allNames hn] at hb
  have hspec := buildDatabaseWith_ok_spec sources allNames db hb
  intro parent n
  rw [hspec.2.1 parent, List.mem_filter]
  simp [and_assoc]

/-- C8 witness: with `pci` and `pci/resource_alignment` both defined,
`pci/resource_alignment` is indexed under `pci`. -/
theorem subparameter_index_from_rightmost_slash_witness :
    collectNames c8Sources [] = .ok ["pci", "pci/resource_alignment"]
    ∧ buildDatabase c8Sources = .ok c8Db
    ∧ (lookupVal c8Db.parameters "pci").isSome = true
    ∧ getParentParameter "pci/resource_alignment" = some "pci"
    ∧ "pci/resource_alignment" ∈ c8Db.subparameterIndex "pci" := by
  refine ⟨rfl, rfl, rfl, rfl, ?_⟩
  exact (subparameter_index_from_rightmost_slash c8Sources c8Db
    ["pci", "pci/resource_alignment"] rfl rfl "pci" "pci/resource_alignment").mpr
    ⟨by decide, rfl, rfl⟩

/-- C9 counterexample: the same unchanged source set, enumerated in the two
orders a hash set may produce across two builds, yields different
subparameter index bucket lists — the claimed identity of the indices
fails. -/
theorem build_order_dependence_counterexample :
    List.Perm ["p/a", "p/b"] ["p/b", "p/a"]
    ∧ collectNames c9Sources [] = .ok ["p/a", "p/b"]
    ∧ Except.map (fun db => db.subparameterIndex "p")
        (buildDatabaseWith c9Sources ["p/a", "p/b"]) = .ok ["p/a", "p/b"]
    ∧ Except.map (fun db => db.subparameterIndex "p")
        (buildDatabaseWith c9Sources ["p/b", "p/a"]) = .ok ["p/b", "p/a"]
    ∧ (["p/a", "p/b"] : List String) ≠ ["p/b", "p/a"] :=
  ⟨List.Perm.swap "p/b" "p/a" [], rfl, rfl, rfl, by decide⟩

/-- C9 (amended): two builds over enumeration orders that are permutations
of the same collected name set agree on the parameter map (as a lookup
function) and on the membership of every subparameter and processor index
bucket; only the order inside each bucket list may differ. -/
theorem build_permutation_invariance
    (sources : List ParameterSource) (o1 o2 : List String)
    (db1 db2 : LoadedDatabase)
    (hperm : o1.Perm o2)
    (h1 : buildDatabaseWith sources o1 = .ok db1)
    (h2 : buildDatabaseWith sources o2 = .ok db2) :
    (∀ n, lookupVal db1.parameters n = lookupVal db2.parameters n)
    ∧ (∀ parent n, n ∈ db1.subparameterIndex parent
        ↔ n ∈ db2.subparameterIndex parent)
    ∧ (∀ proc n, n ∈ db1.processorIndex proc ↔ n ∈ db2.processorIndex proc) := by
  have s1 := buildDatabaseWith_ok_spec sources o1 db1 h1
  have s2 := buildDatabaseWith_ok_spec sources o2 db2 h2
  have hmm : ∀ x, x ∈ o1.filterMap (loadPair sources)
      ↔ x ∈ o2.filterMap (loadPair sources) := by
    intro x
    simp only [List.mem_filterMap]
    constructor
    · rintro ⟨a, ha, hx⟩
      exact ⟨a, hperm.mem_iff.mp ha, hx⟩
    · rintro ⟨a, ha, hx⟩
      exact ⟨a, hperm.mem_iff.mpr ha, hx⟩
  refine ⟨fun n => ?_, fun parent n => ?_, fun proc n => ?_⟩
  · rw [s1.1, s2.1, lookup_filterMap_loadPair, lookup_filterMap_loadPair]
    by_cases hm : n ∈ o1
    · rw [if_pos hm, if_pos (hperm.mem_iff.mp hm)]
    · rw [if_neg hm, if_neg (fun hc => hm (hperm.mem_iff.mpr hc))]
  · rw [s1.2.1 parent, s2.2.1 parent, List.mem_filter, List.mem_filter]
    constructor
    · rintro ⟨hm, hp⟩
      exact ⟨hperm.mem_iff.mp hm, hp⟩
    · rintro ⟨hm, hp⟩
      exact ⟨hperm.mem_iff.mpr hm, hp⟩
  · rw [s1.2.2, s2.2.2, mem_buildProcessorIndex, mem_buildProcessorIndex]
    constructor
    · rintro ⟨q, hq, he⟩
      exact ⟨q, (hmm (n, q)).mp hq, he⟩
    · rintro ⟨q, hq, he⟩
      exact ⟨q, (hmm (n, q)).mpr hq, he⟩

/-- C9 witness: for the two concrete enumeration orders of the same source
set, lookups and bucket memberships coincide. -/
theorem build_permutation_invariance_witness :
    List.Perm ["p/a", "p/b"] ["p/b", "p/a"]
    ∧ buildDatabaseWith c9Sources ["p/a", "p/b"] = .ok c9DbA
    ∧ buildDatabaseWith c9Sources ["p/b", "p/a"] = .ok c9DbB
    ∧ lookupVal c9DbA.parameters "p/a" = lookupVal c9DbB.parameters "p/a"
    ∧ ("p/a" ∈ c9DbA.subparameterIndex "p" ↔ "p/a" ∈ c9DbB.subparameterIndex "p")
    ∧ ("p/a" ∈ c9DbA.processorIndex ParameterProcessor.kernel
        ↔ "p/a" ∈ c9DbB.processorIndex ParameterProcessor.kernel) :=
  ⟨List.Perm.swap "p/b" "p/a" [], rfl, rfl,
   (build_permutation_invariance c9Sources ["p/a", "p/b"] ["p/b", "p/a"]
     c9DbA c9DbB (List.Perm.swap "p/b" "p/a" []) rfl rfl).1 "p/a",
   (build_permutation_invariance c9Sources ["p/a", "p/b"] ["p/b", "p/a"]
     c9DbA c9DbB (List.Perm.swap "p/b" "p/a" []) rfl rfl).2.1 "p" "p/a",
   (build_permutation_invariance c9Sources ["p/a", "p/b"] ["p/b", "p/a"]
     c9DbA c9DbB (List.Perm.swap "p/b" "p/a" []) rfl rfl).2.2
     ParameterProcessor.kernel "p/a"⟩

end Kcmdline
